import Mathlib

/-!
Verification of the Conduit backend (Go) against its specification.

A Go string is modelled as its list of bytes (`GoStr := List Nat`), because
the source's slug logic mixes byte-level operations (`len`, `slug[:100]`,
`strings.TrimRight`) with rune-level operations (`for _, r := range`,
`strings.ToLower`).  UTF-8 decoding follows Go's `utf8.DecodeRune`,
including the replacement-character behaviour on invalid input that
`range` and `strings.Map` exhibit.
-/

set_option maxRecDepth 100000

deriving instance DecidableEq for Except

/-- A Go string: its UTF-8 byte sequence. -/
abbrev GoStr := List Nat

/-- Go's `utf8.EncodeRune` / `WriteRune` for a valid rune (the runes we encode
are always either valid or U+FFFD, which encodes normally). -/
def utf8EncodeChar (r : Nat) : List Nat :=
  if r < 0x80 then [r]
  else if r < 0x800 then [0xC0 + r / 64, 0x80 + r % 64]
  else if r < 0x10000 then [0xE0 + r / 4096, 0x80 + (r / 64) % 64, 0x80 + r % 64]
  else [0xF0 + r / 0x40000, 0x80 + (r / 4096) % 64, 0x80 + (r / 64) % 64, 0x80 + r % 64]

/-- Literal helper: the UTF-8 bytes of a Lean string literal. -/
def goStr (s : String) : GoStr :=
  s.data.flatMap (fun c => utf8EncodeChar c.toNat)

/-- Go's `utf8.DecodeRune`: first rune of a byte string and the number of bytes
it occupies.  Invalid or truncated sequences yield (U+FFFD, 1), as in Go. -/
def goDecodeRune : List Nat → Nat × Nat
  | [] => (0xFFFD, 0)
  | b0 :: rest =>
    if b0 < 0x80 then (b0, 1)
    else if b0 < 0xC2 then (0xFFFD, 1)
    else if b0 ≤ 0xDF then
      match rest with
      | b1 :: _ =>
        if 0x80 ≤ b1 ∧ b1 ≤ 0xBF then ((b0 - 0xC0) * 64 + (b1 - 0x80), 2)
        else (0xFFFD, 1)
      | [] => (0xFFFD, 1)
    else if b0 ≤ 0xEF then
      match rest with
      | b1 :: b2 :: _ =>
        let lo := if b0 = 0xE0 then 0xA0 else 0x80
        let hi := if b0 = 0xED then 0x9F else 0xBF
        if (lo ≤ b1 ∧ b1 ≤ hi) ∧ (0x80 ≤ b2 ∧ b2 ≤ 0xBF) then
          ((b0 - 0xE0) * 4096 + (b1 - 0x80) * 64 + (b2 - 0x80), 3)
        else (0xFFFD, 1)
      | _ => (0xFFFD, 1)
    else if b0 ≤ 0xF4 then
      match rest with
      | b1 :: b2 :: b3 :: _ =>
        let lo := if b0 = 0xF0 then 0x90 else 0x80
        let hi := if b0 = 0xF4 then 0x8F else 0xBF
        if (lo ≤ b1 ∧ b1 ≤ hi) ∧ (0x80 ≤ b2 ∧ b2 ≤ 0xBF) ∧ (0x80 ≤ b3 ∧ b3 ≤ 0xBF) then
          ((b0 - 0xF0) * 0x40000 + (b1 - 0x80) * 4096 + (b2 - 0x80) * 64 + (b3 - 0x80), 4)
        else (0xFFFD, 1)
      | _ => (0xFFFD, 1)
    else (0xFFFD, 1)

/-- Decode a whole byte string to its rune sequence (Go's `for range` view).
The fuel argument is an upper bound on the number of runes; each step consumes
at least one byte, so `s.length` is always enough. -/
def goRunesAux : Nat → List Nat → List Nat
  | 0, _ => []
  | _, [] => []
  | fuel + 1, b :: rest =>
    let p := goDecodeRune (b :: rest)
    p.1 :: goRunesAux fuel ((b :: rest).drop (max p.2 1))

/-- The rune sequence of a Go string. -/
def goRunes (s : GoStr) : List Nat := goRunesAux s.length s

/-- Fragment of Go's `unicode.IsLetter` sufficient for this repository's
inputs: ASCII letters, the Latin-1 letters (U+00AA, U+00B5, U+00BA,
U+00C0–U+00FF except × and ÷), and the CJK Unified Ideographs block.  Other
codepoints are reported as non-letters; no input considered here contains
letters outside this fragment. -/
def goIsLetter (r : Nat) : Bool :=
  (65 ≤ r ∧ r ≤ 90) ∨ (97 ≤ r ∧ r ≤ 122) ∨
  r = 0xAA ∨ r = 0xB5 ∨ r = 0xBA ∨
  (0xC0 ≤ r ∧ r ≤ 0xFF ∧ r ≠ 0xD7 ∧ r ≠ 0xF7) ∨
  (0x4E00 ≤ r ∧ r ≤ 0x9FFF)

/-- Fragment of Go's `unicode.IsNumber`: the ASCII digits (no input considered
here contains other numeric codepoints). -/
def goIsNumber (r : Nat) : Bool := 48 ≤ r ∧ r ≤ 57

/-- Fragment of the `unicode.ToLower` mapping used by `strings.ToLower`:
ASCII A–Z and the Latin-1 uppercase letters À–Þ (except ×) map down by 0x20;
everything else in the inputs considered here is already lowercase or caseless. -/
def goToLowerRune (r : Nat) : Nat :=
  if 65 ≤ r ∧ r ≤ 90 then r + 32
  else if 0xC0 ≤ r ∧ r ≤ 0xDE ∧ r ≠ 0xD7 then r + 32
  else r

/-- Go's `strings.ToLower`: decode runes (invalid bytes become U+FFFD), map
each through the lowercase mapping, re-encode. -/
def stringsToLower (s : GoStr) : GoStr :=
  (goRunes s).flatMap (fun r => utf8EncodeChar (goToLowerRune r))

/-- The byte set matched by `\s` in Go's regexp package (Perl class):
tab, newline, form feed, carriage return, space. -/
def isWsByte (b : Nat) : Bool := b = 9 ∨ b = 10 ∨ b = 12 ∨ b = 13 ∨ b = 32

/-- Worker for `collapseRuns`: the Bool records whether we are inside a run of
`p`-bytes whose replacement byte has already been emitted. -/
def collapseRunsAux (p : Nat → Bool) (c : Nat) : Bool → List Nat → List Nat
  | _, [] => []
  | inRun, b :: rest =>
    if p b then
      if inRun then collapseRunsAux p c true rest
      else c :: collapseRunsAux p c true rest
    else b :: collapseRunsAux p c false rest

/-- Replace every maximal nonempty run of bytes satisfying `p` by the single
byte `c` (the effect of `regexp.ReplaceAllString` with pattern `X+`). -/
def collapseRuns (p : Nat → Bool) (c : Nat) (l : List Nat) : List Nat :=
  collapseRunsAux p c false l

/-- `strings.Trim`-style left trim of hyphen bytes. -/
def trimLeft45 (s : GoStr) : GoStr := s.dropWhile (fun b => b == 45)

/-- `strings.TrimRight(s, "-")`. -/
def trimRight45 (s : GoStr) : GoStr := (s.reverse.dropWhile (fun b => b == 45)).reverse

/-- The keep-test of the filtering loop in `GenerateSlug`:
`unicode.IsLetter(r) || unicode.IsNumber(r) || r == '-'`. -/
def slugKeepRune (r : Nat) : Bool := goIsLetter r || goIsNumber r || r == 45

/-- The filtering loop of `GenerateSlug`: decode runes, keep letters / numbers
/ hyphens, re-encode (`strings.Builder` + `WriteRune`). -/
def slugFilter (s : GoStr) : GoStr :=
  (goRunes s).filter slugKeepRune |>.flatMap utf8EncodeChar

/-- `strings.Trim(slug, "-")`: remove leading and trailing hyphens. -/
def slugTrim (s : GoStr) : GoStr := trimRight45 (trimLeft45 s)

/-- The `-+` → `-` regexp replacement of `GenerateSlug`. -/
def slugCollapse (s : GoStr) : GoStr := collapseRuns (fun b => b == 45) 45 s

/-- The final length cap of `GenerateSlug`: `slug = slug[:100]` followed by
`strings.TrimRight(slug, "-")` when over 100 bytes. -/
def slugTruncate (s : GoStr) : GoStr :=
  if 100 < s.length then trimRight45 (s.take 100) else s

/-- `entities.GenerateSlug` (src/backend/internal/entities/article.go):
lowercase, collapse whitespace runs to hyphens, keep only letters / numbers /
hyphens, trim and collapse hyphens, truncate to 100 bytes. -/
def GenerateSlug (title : GoStr) : GoStr :=
  if title = [] then []
  else
    slugTruncate (slugCollapse (slugTrim (slugFilter
      (collapseRuns isWsByte 45 (stringsToLower title)))))

/-- Worker for `natDigits`; the fuel bounds the digit count (`n` itself is
always enough fuel). -/
def natDigitsAux : Nat → Nat → GoStr
  | 0, _ => []
  | _, 0 => []
  | fuel + 1, n => natDigitsAux fuel (n / 10) ++ [48 + n % 10]

/-- Decimal digits of a positive natural number, most significant first
(the loop body of the source's `intToString`). -/
def natDigits (n : Nat) : GoStr := natDigitsAux n n

/-- The source's `intToString` restricted to naturals (loop counters). -/
def natToString (n : Nat) : GoStr := if n = 0 then [48] else natDigits n

/-- The source's `intToString` (handles zero and negatives). -/
def intToString (n : Int) : GoStr :=
  if n = 0 then [48]
  else if n < 0 then 45 :: natDigits n.natAbs
  else natDigits n.natAbs

/-- The linear scan `for _, existing := range existingSlugs` with early break:
true iff `slug` occurs in the list. -/
def goContains : List GoStr → GoStr → Bool
  | [], _ => false
  | x :: xs, slug => if x == slug then true else goContains xs slug

/-- The suffix-searching loop of `EnsureUniqueSlug`.  The source increments
`counter` from 1 and bails out to a timestamp suffix once `counter > 1000`;
the fuel argument makes the recursion structural and `EnsureUniqueSlug`
supplies fuel 1000, exactly the number of iterations the cap permits, so the
fuel-exhausted branch (which returns the same fallback) is unreachable. -/
def ensureLoopAux (now : Int) (slug : GoStr) (existingSlugs : List GoStr) :
    Nat → Nat → GoStr
  | 0, _ => slug ++ 45 :: intToString now
  | fuel + 1, counter =>
    let candidateSlug := slug ++ 45 :: natToString counter
    if goContains existingSlugs candidateSlug then
      if counter + 1 > 1000 then slug ++ 45 :: intToString now
      else ensureLoopAux now slug existingSlugs fuel (counter + 1)
    else candidateSlug

/-- `entities.EnsureUniqueSlug` (src/backend/internal/entities/article.go).
`now` stands for `time.Now().Unix()`, passed explicitly to keep the function
pure. -/
def EnsureUniqueSlug (now : Int) (baseSlug : GoStr) (existingSlugs : List GoStr) : GoStr :=
  if baseSlug = [] then []
  else if goContains existingSlugs baseSlug then ensureLoopAux now baseSlug existingSlugs 1000 1
  else baseSlug

/-- ASCII-only lowercase mapping: the `toLowerCase` helper shared by
jwt_service.go and the handlers (it maps runes A–Z down and leaves the rest;
byte-level mapping is faithful for the ASCII strings it is applied to). -/
def toLowerCase (s : GoStr) : GoStr :=
  s.map (fun b => if 65 ≤ b ∧ b ≤ 90 then b + 32 else b)

/-- The `findSubstring` helper (first index of `substr` in `s`, or -1). -/
def findSubstring (s substr : GoStr) : Int :=
  if substr.length = 0 then 0
  else
    match (List.range (s.length - substr.length + 1)).find?
        (fun i => (s.drop i).take substr.length == substr) with
    | some i => Int.ofNat i
    | none => -1

/-- The `containsString` helper (case-insensitive substring test). -/
def containsString (s substr : GoStr) : Bool :=
  s.length ≥ substr.length && findSubstring (toLowerCase s) (toLowerCase substr) ≥ 0

/-- `services.IsTokenExpired` (jwt_service.go): `nil` errors are modelled as
`none`, non-nil errors by their message. -/
def IsTokenExpired (err : Option GoStr) : Bool :=
  match err with
  | none => false
  | some m => containsString m (goStr "token is expired") || containsString m (goStr "exp")

/-- `services.IsTokenInvalid` (jwt_service.go). -/
def IsTokenInvalid (err : Option GoStr) : Bool :=
  match err with
  | none => false
  | some m =>
    containsString m (goStr "token is malformed") ||
    containsString m (goStr "signature is invalid") ||
    containsString m (goStr "unexpected signing method") ||
    containsString m (goStr "invalid token")

/-- `entities.ValidationError`. -/
structure ValidationError where
  field : GoStr
  message : GoStr
deriving DecidableEq

/-- Fragment of `strings.TrimSpace` covering ASCII whitespace
(tab, LF, VT, FF, CR, space); the validators' inputs contain no other
whitespace codepoints. -/
def goTrimSpace (s : GoStr) : GoStr :=
  let sp : Nat → Bool := fun b => b == 9 || b == 10 || b == 11 || b == 12 || b == 13 || b == 32
  ((s.dropWhile sp).reverse.dropWhile sp).reverse

/-- Byte class `[a-z0-9._%+\-]` (local part of the e-mail regex). -/
def emailLocalByte (b : Nat) : Bool :=
  (97 ≤ b ∧ b ≤ 122) ∨ (48 ≤ b ∧ b ≤ 57) ∨ b = 46 ∨ b = 95 ∨ b = 37 ∨ b = 43 ∨ b = 45

/-- Byte class `[a-z0-9.\-]` (domain part of the e-mail regex). -/
def emailDomainByte (b : Nat) : Bool :=
  (97 ≤ b ∧ b ≤ 122) ∨ (48 ≤ b ∧ b ≤ 57) ∨ b = 46 ∨ b = 45

/-- `entities.isValidEmail`: the anchored regex
`^[a-z0-9._%+\-]+@[a-z0-9.\-]+\.[a-z]{2,}$` applied to the lowercased input,
written out as an explicit decomposition (the regex matches iff some split at
an `@` and a later `.` satisfies the class and length constraints; both
classes are pure ASCII, so byte-level matching is faithful). -/
def isValidEmail (email : GoStr) : Bool :=
  let s := stringsToLower email
  (List.range s.length).any fun i =>
    s.get? i == some 64 &&
    (let loc := s.take i
     let rest := s.drop (i + 1)
     !loc.isEmpty && loc.all emailLocalByte &&
     (List.range rest.length).any fun j =>
       rest.get? j == some 46 &&
       (let dom := rest.take j
        let tld := rest.drop (j + 1)
        !dom.isEmpty && dom.all emailDomainByte &&
        decide (2 ≤ tld.length) && tld.all (fun b => 97 ≤ b && b ≤ 122)))

/-- `entities.isValidUsername`: the anchored regex `^[a-zA-Z0-9_]+$`
(again a pure-ASCII class, so the byte-level check is faithful). -/
def isValidUsername (username : GoStr) : Bool :=
  !username.isEmpty &&
  username.all (fun b => (65 ≤ b && b ≤ 90) || (97 ≤ b && b ≤ 122) || (48 ≤ b && b ≤ 57) || b == 95)

/-- `entities.UserRegistration`. -/
structure UserRegistration where
  username : GoStr
  email : GoStr
  password : GoStr

/-- `entities.UserUpdate` (all fields optional pointers in the source). -/
structure UserUpdate where
  username : Option GoStr
  email : Option GoStr
  bio : Option GoStr
  imageURL : Option GoStr
  password : Option GoStr

/-- `entities.ArticleCreate`. -/
structure ArticleCreate where
  title : GoStr
  description : GoStr
  body : GoStr

/-- `entities.ArticleUpdate` (all fields optional pointers in the source). -/
structure ArticleUpdate where
  title : Option GoStr
  description : Option GoStr
  body : Option GoStr

/-- The username branch of `UserRegistration.Validate` (an else-if chain
contributing at most one error). -/
def regUsernameErrs (u : GoStr) : List ValidationError :=
  if u = [] then [⟨goStr "username", goStr "username is required"⟩]
  else if u.length < 3 then [⟨goStr "username", goStr "username must be at least 3 characters long"⟩]
  else if u.length > 50 then [⟨goStr "username", goStr "username must be less than 50 characters long"⟩]
  else if !isValidUsername u then
    [⟨goStr "username", goStr "username can only contain letters, numbers, and underscores"⟩]
  else []

/-- The email branch of `UserRegistration.Validate` (and `UserLogin`). -/
def regEmailErrs (e : GoStr) : List ValidationError :=
  if e = [] then [⟨goStr "email", goStr "email is required"⟩]
  else if !isValidEmail e then [⟨goStr "email", goStr "email format is invalid"⟩]
  else []

/-- The password branch of `UserRegistration.Validate`. -/
def regPasswordErrs (p : GoStr) : List ValidationError :=
  if p = [] then [⟨goStr "password", goStr "password is required"⟩]
  else if p.length < 6 then [⟨goStr "password", goStr "password must be at least 6 characters long"⟩]
  else if p.length > 100 then [⟨goStr "password", goStr "password must be less than 100 characters long"⟩]
  else []

/-- `UserRegistration.Validate`: the error slice accumulated by the three
branches; `none` models the `nil` return when no error was appended. -/
def UserRegistration.Validate (ur : UserRegistration) : Option (List ValidationError) :=
  let errors := regUsernameErrs ur.username ++ regEmailErrs ur.email ++ regPasswordErrs ur.password
  if errors.length > 0 then some errors else none

/-- The username branch of `UserUpdate.Validate`: checks run only when the
field is present AND non-empty (`if username != ""`). -/
def updUsernameErrs : Option GoStr → List ValidationError
  | none => []
  | some u =>
    if u ≠ [] then
      if u.length < 3 then [⟨goStr "username", goStr "username must be at least 3 characters long"⟩]
      else if u.length > 50 then [⟨goStr "username", goStr "username must be less than 50 characters long"⟩]
      else if !isValidUsername u then
        [⟨goStr "username", goStr "username can only contain letters, numbers, and underscores"⟩]
      else []
    else []

/-- The email branch of `UserUpdate.Validate`. -/
def updEmailErrs : Option GoStr → List ValidationError
  | none => []
  | some e =>
    if e ≠ [] ∧ !isValidEmail e then [⟨goStr "email", goStr "email format is invalid"⟩] else []

/-- The password branch of `UserUpdate.Validate`. -/
def updPasswordErrs : Option GoStr → List ValidationError
  | none => []
  | some p =>
    if p ≠ [] then
      if p.length < 6 then [⟨goStr "password", goStr "password must be at least 6 characters long"⟩]
      else if p.length > 100 then [⟨goStr "password", goStr "password must be less than 100 characters long"⟩]
      else []
    else []

/-- The bio branch of `UserUpdate.Validate` (length bound only). -/
def updBioErrs : Option GoStr → List ValidationError
  | none => []
  | some b =>
    if b.length > 500 then [⟨goStr "bio", goStr "bio must be less than 500 characters long"⟩] else []

/-- `UserUpdate.Validate` (src/unnamed/part_003). -/
def UserUpdate.Validate (uu : UserUpdate) : Option (List ValidationError) :=
  let errors := updUsernameErrs uu.username ++ updEmailErrs uu.email ++
    updPasswordErrs uu.password ++ updBioErrs uu.bio
  if errors.length > 0 then some errors else none

/-- One optional-field branch of `ArticleUpdate.Validate`: a present field is
an error when its trimmed value is empty or the raw value exceeds the bound. -/
def artUpdFieldErrs (fieldName : GoStr) (bound : Nat) (emptyMsg longMsg : GoStr) :
    Option GoStr → List ValidationError
  | none => []
  | some v =>
    if goTrimSpace v = [] then [⟨fieldName, emptyMsg⟩]
    else if v.length > bound then [⟨fieldName, longMsg⟩]
    else []

/-- `ArticleUpdate.Validate` (src/backend/internal/entities/article.go). -/
def ArticleUpdate.Validate (au : ArticleUpdate) : Option (List ValidationError) :=
  let errors :=
    artUpdFieldErrs (goStr "title") 200 (goStr "title cannot be empty")
      (goStr "title must be less than 200 characters long") au.title ++
    artUpdFieldErrs (goStr "description") 500 (goStr "description cannot be empty")
      (goStr "description must be less than 500 characters long") au.description ++
    artUpdFieldErrs (goStr "body") 10000 (goStr "body cannot be empty")
      (goStr "body must be less than 10000 characters long") au.body
  if errors.length > 0 then some errors else none

/-- One required-field branch of `ArticleCreate.Validate`. -/
def artCreateFieldErrs (fieldName : GoStr) (bound : Nat) (reqMsg emptyMsg longMsg : GoStr)
    (v : GoStr) : List ValidationError :=
  if v = [] then [⟨fieldName, reqMsg⟩]
  else if (goTrimSpace v).length < 1 then [⟨fieldName, emptyMsg⟩]
  else if v.length > bound then [⟨fieldName, longMsg⟩]
  else []

/-- `ArticleCreate.Validate` (src/backend/internal/entities/article.go). -/
def ArticleCreate.Validate (ac : ArticleCreate) : Option (List ValidationError) :=
  let errors :=
    artCreateFieldErrs (goStr "title") 200 (goStr "title is required")
      (goStr "title cannot be empty") (goStr "title must be less than 200 characters long") ac.title ++
    artCreateFieldErrs (goStr "description") 500 (goStr "description is required")
      (goStr "description cannot be empty")
      (goStr "description must be less than 500 characters long") ac.description ++
    artCreateFieldErrs (goStr "body") 10000 (goStr "body is required")
      (goStr "body cannot be empty") (goStr "body must be less than 10000 characters long") ac.body
  if errors.length > 0 then some errors else none

/-- `entities.User` (timestamps as Unix seconds). -/
structure User where
  id : Int
  username : GoStr
  email : GoStr
  bio : GoStr
  imageURL : GoStr
  passwordHash : GoStr
  createdAt : Int
  updatedAt : Int
deriving DecidableEq

/-- `entities.Article`. -/
structure Article where
  id : Int
  slug : GoStr
  title : GoStr
  description : GoStr
  body : GoStr
  authorID : Int
  favoritesCount : Int
  createdAt : Int
  updatedAt : Int
deriving DecidableEq

/-- `entities.Comment`. -/
structure Comment where
  id : Int
  body : GoStr
  authorID : Int
  articleID : Int
  createdAt : Int
  updatedAt : Int
deriving DecidableEq

/-- The relational store: users, articles, comments, plus the autoincrement
counter for article ids.  The slug column carries a UNIQUE constraint, modelled
in the repository operations. -/
structure DBState where
  users : List User
  articles : List Article
  comments : List Comment
  nextArticleID : Int
deriving DecidableEq

/-- Byte-string starts-with test (SQL `LIKE 'base%'` on the ASCII-safe slug
column). -/
def goStartsWith : GoStr → GoStr → Bool
  | _, [] => true
  | [], _ :: _ => false
  | b :: bs, p :: ps => b == p && goStartsWith bs ps

/-- `articleRepository.GetExistingSlugs`: slugs matching `LIKE baseSlug+"%"`. -/
def getExistingSlugs (db : DBState) (baseSlug : GoStr) : List GoStr :=
  (db.articles.filter (fun a => goStartsWith a.slug baseSlug)).map (fun a => a.slug)

/-- `articleRepository.getExistingSlugsExcluding`: as above but `id != excludeID`. -/
def getExistingSlugsExcluding (db : DBState) (baseSlug : GoStr) (excludeID : Int) : List GoStr :=
  (db.articles.filter (fun a => goStartsWith a.slug baseSlug && a.id ≠ excludeID)).map
    (fun a => a.slug)

/-- `articleRepository.loadAuthor` via `userRepo.GetByID`: fails when the
author row is absent, with the wrapped message the handlers pattern-match. -/
def loadAuthorCheck (db : DBState) (authorID : Int) : Except GoStr Unit :=
  match db.users.find? (fun u => u.id == authorID) with
  | none => .error (goStr "failed to load author: user not found")
  | some _ => .ok ()

/-- `articleRepository.GetBySlug`. -/
def repoGetBySlug (db : DBState) (slug : GoStr) : Except GoStr Article :=
  match db.articles.find? (fun a => a.slug == slug) with
  | none => .error (goStr "article not found")
  | some a =>
    match loadAuthorCheck db a.authorID with
    | .error e => .error e
    | .ok _ => .ok a

/-- `articleRepository.GetByID`. -/
def repoGetByID (db : DBState) (id : Int) : Except GoStr Article :=
  match db.articles.find? (fun a => a.id == id) with
  | none => .error (goStr "article not found")
  | some a =>
    match loadAuthorCheck db a.authorID with
    | .error e => .error e
    | .ok _ => .ok a

/-- `articleRepository.Create` (src/unnamed/part_007).  Returns the result and
the resulting store (the source has no transaction, so the row stays inserted
even when the subsequent author load fails). -/
def repoCreate (now : Int) (db : DBState) (authorID : Int) (articleCreate : ArticleCreate) :
    Except GoStr Article × DBState :=
  let baseSlug := GenerateSlug articleCreate.title
  if baseSlug = [] then (.error (goStr "failed to generate slug from title"), db)
  else
    let existingSlugs := getExistingSlugs db baseSlug
    let uniqueSlug := EnsureUniqueSlug now baseSlug existingSlugs
    if db.articles.any (fun a => a.slug == uniqueSlug) then
      (.error (goStr "article with this slug already exists"), db)
    else
      let article : Article :=
        ⟨db.nextArticleID, uniqueSlug, articleCreate.title, articleCreate.description,
          articleCreate.body, authorID, 0, now, now⟩
      let db' := { db with articles := db.articles ++ [article],
                           nextArticleID := db.nextArticleID + 1 }
      match loadAuthorCheck db' authorID with
      | .error e => (.error e, db')
      | .ok _ => (.ok article, db')

/-- The UPDATE statement of `articleRepository.Update` once the SET clause is
known: locate the row by id, apply the new column values, honouring the UNIQUE
constraint on slug (a violating UPDATE fails atomically). -/
def repoUpdateApply (now : Int) (db : DBState) (id : Int) (updates : ArticleUpdate)
    (titleSlug : Option (GoStr × GoStr)) : Except GoStr Article × DBState :=
  match db.articles.find? (fun a => a.id == id) with
  | none => (.error (goStr "article not found"), db)
  | some a =>
    let a' : Article :=
      { a with title := (titleSlug.map Prod.fst).getD a.title,
               slug := (titleSlug.map Prod.snd).getD a.slug,
               description := updates.description.getD a.description,
               body := updates.body.getD a.body,
               updatedAt := now }
    if db.articles.any (fun b => b.id ≠ id && b.slug == a'.slug) then
      (.error (goStr "slug already exists"), db)
    else
      let db' := { db with articles := db.articles.map (fun b => if b.id == id then a' else b) }
      match loadAuthorCheck db' a'.authorID with
      | .error e => (.error e, db')
      | .ok _ => (.ok a', db')

/-- `articleRepository.Update` (src/unnamed/part_007): on a title change the
slug is regenerated against the existing slugs excluding the article's own
row; with no field present the current row is returned unchanged. -/
def repoUpdate (now : Int) (db : DBState) (id : Int) (updates : ArticleUpdate) :
    Except GoStr Article × DBState :=
  match updates.title with
  | some t =>
    let baseSlug := GenerateSlug t
    if baseSlug = [] then (.error (goStr "failed to generate slug from new title"), db)
    else
      let existingSlugs := getExistingSlugsExcluding db baseSlug id
      let uniqueSlug := EnsureUniqueSlug now baseSlug existingSlugs
      repoUpdateApply now db id updates (some (t, uniqueSlug))
  | none =>
    if updates.description = none ∧ updates.body = none then (repoGetByID db id, db)
    else repoUpdateApply now db id updates none

/-- `articleRepository.Delete`: DELETE WHERE id, "article not found" when no
row is affected; comments cascade (ON DELETE CASCADE in the schema). -/
def repoDeleteArticle (db : DBState) (id : Int) : Except GoStr Unit × DBState :=
  if db.articles.any (fun a => a.id == id) then
    (.ok (), { db with articles := db.articles.filter (fun a => a.id ≠ id),
                       comments := db.comments.filter (fun c => c.articleID ≠ id) })
  else (.error (goStr "article not found"), db)

/-- `commentRepository.GetByID` (src/backend/internal/middleware/auth.go,
concatenated comment repository document): select the row by id — absent row
→ "comment not found" — then load the author via `userRepo.GetByID`, whose
failure is wrapped as "failed to load author: …". -/
def repoCommentGetByID (db : DBState) (id : Int) : Except GoStr Comment :=
  match db.comments.find? (fun c => c.id == id) with
  | none => .error (goStr "comment not found")
  | some c =>
    match loadAuthorCheck db c.authorID with
    | .error e => .error e
    | .ok _ => .ok c

/-- `commentRepository.Delete` (same concatenated document): DELETE WHERE id,
failing with "comment not found" when no row is affected. -/
def repoCommentDelete (db : DBState) (id : Int) : Except GoStr Unit × DBState :=
  if db.comments.any (fun c => c.id == id) then
    (.ok (), { db with comments := db.comments.filter (fun c => c.id ≠ id) })
  else (.error (goStr "comment not found"), db)

/-- `strconv.ParseInt(s, 10, 64)` restricted to the widths in play
(overflow is out of scope; the ids parsed here are small). -/
def goParseInt (s : GoStr) : Except GoStr Int :=
  match s with
  | [] => .error (goStr "invalid syntax")
  | b :: rest =>
    let signDigits : Bool × GoStr :=
      if b = 45 then (true, rest) else if b = 43 then (false, rest) else (false, b :: rest)
    let digits := signDigits.2
    if digits ≠ [] ∧ digits.all (fun d => 48 ≤ d ∧ d ≤ 57) then
      let v : Int := digits.foldl (fun acc d => acc * 10 + ((d : Int) - 48)) 0
      .ok (if signDigits.1 then -v else v)
    else .error (goStr "invalid syntax")

/-- `ArticleHandlers.DeleteArticle` (article_handlers.go): HTTP outcome as a
status code plus the resulting store.  `auth` is the user id injected by the
auth middleware (`none` = missing/unverified credential). -/
def DeleteArticle (db : DBState) (method : GoStr) (auth : Option Int) (slug : GoStr) :
    Nat × DBState :=
  if method ≠ goStr "DELETE" then (405, db)
  else
    match auth with
    | none => (401, db)
    | some userID =>
      if slug = [] then (400, db)
      else
        match repoGetBySlug db slug with
        | .error e => (if containsString e (goStr "not found") then 404 else 500, db)
        | .ok existingArticle =>
          if existingArticle.authorID ≠ userID then (403, db)
          else
            match repoDeleteArticle db existingArticle.id with
            | (.ok _, db') => (204, db')
            | (.error e, db') => (if containsString e (goStr "not found") then 404 else 500, db')

/-- `ArticleHandlers.UpdateArticle` (article_handlers.go): `body` is the parse
result of the request body (`none` = malformed JSON). -/
def UpdateArticle (now : Int) (db : DBState) (method : GoStr) (auth : Option Int)
    (slug : GoStr) (body : Option ArticleUpdate) : Nat × DBState :=
  if method ≠ goStr "PUT" then (405, db)
  else
    match auth with
    | none => (401, db)
    | some userID =>
      if slug = [] then (400, db)
      else
        match repoGetBySlug db slug with
        | .error e => (if containsString e (goStr "not found") then 404 else 500, db)
        | .ok existingArticle =>
          if existingArticle.authorID ≠ userID then (403, db)
          else
            match body with
            | none => (400, db)
            | some req =>
              match req.Validate with
              | some _ => (400, db)
              | none =>
                match repoUpdate now db existingArticle.id req with
                | (.ok _, db') => (200, db')
                | (.error e, db') =>
                  (if containsString e (goStr "not found") then 404
                   else if containsString e (goStr "already exists") then 409
                   else 500, db')

/-- `CommentHandlers.DeleteComment` (src/unnamed/part_001). -/
def DeleteComment (db : DBState) (method : GoStr) (auth : Option Int)
    (slug commentIDStr : GoStr) : Nat × DBState :=
  if method ≠ goStr "DELETE" then (405, db)
  else
    match auth with
    | none => (401, db)
    | some userID =>
      if slug = [] then (400, db)
      else if commentIDStr = [] then (400, db)
      else
        match goParseInt commentIDStr with
        | .error _ => (400, db)
        | .ok commentID =>
          match repoGetBySlug db slug with
          | .error e => (if containsString e (goStr "not found") then 404 else 500, db)
          | .ok _ =>
            match repoCommentGetByID db commentID with
            | .error e => (if containsString e (goStr "not found") then 404 else 500, db)
            | .ok existingComment =>
              if existingComment.authorID ≠ userID then (403, db)
              else
                match repoCommentDelete db commentID with
                | (.ok _, db') => (204, db')
                | (.error e, db') =>
                  (if containsString e (goStr "not found") then 404 else 500, db')

/-- `services.jwtService` configuration (jwt_service.go); `tokenExpiry` in
Unix seconds (the source stores a `time.Duration` of whole hours). -/
structure JwtService where
  secretKey : GoStr
  tokenExpiry : Int
  signingMethod : GoStr
deriving DecidableEq

/-- `services.NewJWTService`. -/
def NewJWTService (secretKey : GoStr) (tokenExpiryHours : Int) : JwtService :=
  ⟨secretKey, tokenExpiryHours * 3600, goStr "HS256"⟩

/-- `services.JWTClaims`: the registered and custom claims the service builds. -/
structure JWTClaims where
  userID : Int
  username : GoStr
  expiresAt : Int
  issuedAt : Int
  notBefore : Int
  subject : GoStr
  issuer : GoStr
deriving DecidableEq

/-- Modelled from the library contract of github.com/golang-jwt/jwt/v5 (an
external dependency, not part of this repository): a signed token carries its
claims, the header algorithm, and — standing in for the HMAC signature — the
key it was signed with; verification succeeds exactly when the verifying key
equals the signing key. -/
structure SignedJWT where
  claims : JWTClaims
  alg : GoStr
  signedKey : GoStr
deriving DecidableEq

/-- `jwtService.GenerateToken` (jwt_service.go); `now` models `time.Now()`. -/
def GenerateToken (svc : JwtService) (now : Int) (user : User) : SignedJWT :=
  ⟨⟨user.id, user.username, now + svc.tokenExpiry, now, now,
    goStr "user:" ++ intToString user.id, goStr "conduit-api"⟩,
   svc.signingMethod, svc.secretKey⟩

/-- `jwtService.ParseToken` composed with the jwt/v5 parser (modelled from the
library contract): the service's keyfunc rejects a non-HMAC / wrong algorithm,
the library rejects a bad signature, then validates the time-based claims.
The v5 expiry check succeeds only while the current time is strictly before
expiry (`verifyExpiresAt`: valid iff cmp.Before(exp)), so a token is already
expired at `now = exp`; the not-before check accepts `now = nbf`.  Each
failure carries the library's message wrapped in the service's
"failed to parse token" context. -/
def ParseToken (svc : JwtService) (now : Int) (tok : SignedJWT) : Except GoStr SignedJWT :=
  if tok.alg ≠ svc.signingMethod then
    .error (goStr "failed to parse token: token is unverifiable: error while executing keyfunc: unexpected signing method: " ++ tok.alg)
  else if tok.signedKey ≠ svc.secretKey then
    .error (goStr "failed to parse token: token signature is invalid: signature is invalid")
  else if tok.claims.expiresAt ≤ now then
    .error (goStr "failed to parse token: token has invalid claims: token is expired")
  else if now < tok.claims.notBefore then
    .error (goStr "failed to parse token: token has invalid claims: token is not valid yet")
  else .ok tok

/-- `jwtService.ValidateToken`: parse, then surface the claim set. -/
def ValidateToken (svc : JwtService) (now : Int) (tok : SignedJWT) : Except GoStr JWTClaims :=
  match ParseToken svc now tok with
  | .error e => .error e
  | .ok t => .ok t.claims

/-- `jwtService.GetUserIDFromToken`: validate, then extract the `user_id`
claim (always present and numeric in tokens this service issues). -/
def GetUserIDFromToken (svc : JwtService) (now : Int) (tok : SignedJWT) : Except GoStr Int :=
  match ValidateToken svc now tok with
  | .error e => .error e
  | .ok claims => .ok claims.userID

/-- The byte set `[a-z0-9-]` that the spec requires slugs to consist of
(also the character test of the source's `IsValidSlug`). -/
def isSlugByte (b : Nat) : Bool := (97 ≤ b ∧ b ≤ 122) ∨ (48 ≤ b ∧ b ≤ 57) ∨ b = 45

/-- A title of 1 ASCII letter followed by sixty copies of the two-byte letter
é (U+00E9): its slug is 121 bytes before truncation, so the byte-level cut at
100 splits the fiftieth é in half. -/
def straddleTitle : GoStr := 97 :: (List.replicate 60 [195, 169]).flatten

/-- True when the list contains two adjacent hyphen bytes ("--"). -/
def hasDouble45 : List Nat → Bool
  | b1 :: b2 :: rest => (b1 == 45 && b2 == 45) || hasDouble45 (b2 :: rest)
  | _ => false

/-- An existing-slug set that defeats the 1000-attempt cap for base slug "a"
at Unix time 0: it contains "a", the timestamp fallback "a-0", and every
candidate "a-1" … "a-1000". -/
def capE : List GoStr :=
  [97] :: [97, 45, 48] :: (List.range 1000).map (fun i => [97] ++ 45 :: natToString (i + 1))

/-- A store holding a single article whose slug was suffixed at creation
(its collision partner has since been deleted). -/
def suffixedDB : DBState :=
  ⟨[⟨1, goStr "alice", goStr "a@x.com", [], [], [], 0, 0⟩],
   [⟨2, goStr "hello-1", goStr "Hello", goStr "d", goStr "b", 1, 0, 0, 0⟩], [], 3⟩

/-- Concrete fixture: one user. -/
def userAlice : User := ⟨1, goStr "alice", goStr "a@x.com", [], [], [], 0, 0⟩

/-- Concrete fixture: one article authored by user 1. -/
def articleHello : Article := ⟨10, goStr "hello", goStr "Hello", goStr "d", goStr "b", 1, 0, 0, 0⟩

/-- Concrete fixture: one comment authored by user 1 on article 10. -/
def commentC : Comment := ⟨5, goStr "c", 1, 10, 0, 0⟩

/-- Concrete fixture store containing the three rows above. -/
def fixtureDB : DBState := ⟨[userAlice], [articleHello], [commentC], 11⟩

/-! ## Claim theorems -/

/-- C1: the claim fails on the code.  `GenerateSlug` keeps every Unicode
letter (`unicode.IsLetter`), so the title "Hello 世界" — the repository's own
test case, whose expected slug is "hello" — produces a slug containing bytes
outside `[a-z0-9-]`. -/
theorem generateSlug_unicode_failing_input :
    GenerateSlug (goStr "Hello 世界") = goStr "hello-世界" ∧
    (GenerateSlug (goStr "Hello 世界")).all isSlugByte = false := by decide

/-- C10: the claim fails on the code.  For a title whose slug is cut at the
100-byte limit in the middle of a multi-byte character, the second application
of `GenerateSlug` decodes the dangling lead byte as U+FFFD and drops it, so
`GenerateSlug` is not idempotent on its own output. -/
theorem generateSlug_not_idempotent_cex :
    GenerateSlug (GenerateSlug straddleTitle) ≠ GenerateSlug straddleTitle := by decide

/-- C4: the claim fails on the code.  A wrong-algorithm verification error is
classified by BOTH `IsTokenExpired` and `IsTokenInvalid`, because the
substring "exp" that `IsTokenExpired` searches for occurs inside
"unexpected signing method". -/
theorem tokenError_classification_overlap_cex :
    ParseToken (NewJWTService (goStr "secret") 24) 0
      ⟨⟨1, goStr "alice", 3600, 0, 0, goStr "user:1", goStr "conduit-api"⟩,
        goStr "RS256", goStr "secret"⟩ =
      .error (goStr "failed to parse token: token is unverifiable: error while executing keyfunc: unexpected signing method: RS256") ∧
    IsTokenExpired (some (goStr "failed to parse token: token is unverifiable: error while executing keyfunc: unexpected signing method: RS256")) = true ∧
    IsTokenInvalid (some (goStr "failed to parse token: token is unverifiable: error while executing keyfunc: unexpected signing method: RS256")) = true := by
  decide

/-- C4 amended: `IsTokenExpired` and `IsTokenInvalid` are substring-based
classifiers.  On expired-token errors only `IsTokenExpired` fires and on
signature/malformed errors only `IsTokenInvalid` fires, but the two kinds are
not mutually exclusive: a wrong-algorithm error is classified as both (its
message contains "exp" inside "unexpected"), and a nil error is neither. -/
theorem tokenError_classification_amended :
    IsTokenExpired (some (goStr "failed to parse token: token has invalid claims: token is expired")) = true ∧
    IsTokenInvalid (some (goStr "failed to parse token: token has invalid claims: token is expired")) = false ∧
    IsTokenExpired (some (goStr "failed to parse token: token signature is invalid: signature is invalid")) = false ∧
    IsTokenInvalid (some (goStr "failed to parse token: token signature is invalid: signature is invalid")) = true ∧
    IsTokenExpired (some (goStr "failed to parse token: token is malformed: token contains an invalid number of segments")) = false ∧
    IsTokenInvalid (some (goStr "failed to parse token: token is malformed: token contains an invalid number of segments")) = true ∧
    IsTokenExpired (some (goStr "failed to parse token: token is unverifiable: error while executing keyfunc: unexpected signing method: RS256")) = true ∧
    IsTokenInvalid (some (goStr "failed to parse token: token is unverifiable: error while executing keyfunc: unexpected signing method: RS256")) = true ∧
    IsTokenExpired none = false ∧ IsTokenInvalid none = false := by decide

/-- C7: validation is collected, not fail-fast: a registration with a
2-character username and an invalid e-mail yields exactly two field errors,
one keyed "username" and one keyed "email". -/
theorem registration_collects_multiple_errors :
    UserRegistration.Validate ⟨goStr "ab", goStr "invalid-email", goStr "secret1"⟩ =
      some [⟨goStr "username", goStr "username must be at least 3 characters long"⟩,
            ⟨goStr "email", goStr "email format is invalid"⟩] := by decide

/-- C6: the claim fails on the code.  `UserUpdate.Validate` skips a present
field whose value is the empty string (`if username != ""` etc.), so a
present-but-empty username — and likewise e-mail and password — produces no
validation error at all, contradicting "a present-but-empty field is a
validation error". -/
theorem userUpdate_empty_field_no_error_cex :
    UserUpdate.Validate ⟨some (goStr ""), none, none, none, none⟩ = none ∧
    UserUpdate.Validate ⟨none, some (goStr ""), none, none, some (goStr "")⟩ = none := by decide

/-- C8: a title whose generated slug is empty makes `articleRepository.Create`
fail before inserting anything, and a title update whose new slug is empty
makes `articleRepository.Update` fail before modifying anything; in both cases
the store is returned unchanged. -/
theorem emptySlug_rejected (now : Int) (db : DBState) :
    (∀ (authorID : Int) (ac : ArticleCreate), GenerateSlug ac.title = [] →
      repoCreate now db authorID ac = (.error (goStr "failed to generate slug from title"), db)) ∧
    (∀ (id : Int) (updates : ArticleUpdate) (t : GoStr),
      updates.title = some t → GenerateSlug t = [] →
      repoUpdate now db id updates = (.error (goStr "failed to generate slug from new title"), db)) := by
  constructor
  · intro authorID ac h
    simp [repoCreate, h]
  · intro id updates t ht h
    simp [repoUpdate, ht, h]

/-- C8 witness: the all-punctuation title "!?!?" has an empty slug, and both
creation and title update with it fail leaving the (empty) store unchanged. -/
theorem emptySlug_rejected_witness :
    GenerateSlug (goStr "!?!?") = [] ∧
    repoCreate 5 ⟨[], [], [], 1⟩ 7 ⟨goStr "!?!?", goStr "d", goStr "b"⟩ =
      (.error (goStr "failed to generate slug from title"), ⟨[], [], [], 1⟩) ∧
    repoUpdate 5 ⟨[], [], [], 1⟩ 3 ⟨some (goStr "!?!?"), none, none⟩ =
      (.error (goStr "failed to generate slug from new title"), ⟨[], [], [], 1⟩) :=
  ⟨by decide,
   (emptySlug_rejected 5 ⟨[], [], [], 1⟩).1 7 ⟨goStr "!?!?", goStr "d", goStr "b"⟩ (by decide),
   (emptySlug_rejected 5 ⟨[], [], [], 1⟩).2 3 ⟨some (goStr "!?!?"), none, none⟩ (goStr "!?!?") rfl (by decide)⟩

/-- C9: with a positive configured TTL, a token verified immediately after
issuance succeeds and yields the issuing user's id, and once the TTL has
elapsed past the issue time (`issue time + TTL ≤ now`, the v5 bound) the same
token fails verification with the expired-token error (which
`IsTokenExpired` recognises). -/
theorem token_roundtrip_and_expiry (svc : JwtService) (u : User) (now : Int)
    (hexp : 0 < svc.tokenExpiry) :
    GetUserIDFromToken svc now (GenerateToken svc now u) = .ok u.id ∧
    ∀ later : Int, now + svc.tokenExpiry ≤ later →
      ValidateToken svc later (GenerateToken svc now u) =
        .error (goStr "failed to parse token: token has invalid claims: token is expired") ∧
      IsTokenExpired (some (goStr "failed to parse token: token has invalid claims: token is expired")) = true := by
  constructor
  · have h1 : ¬ now + svc.tokenExpiry ≤ now := by omega
    simp [GetUserIDFromToken, ValidateToken, ParseToken, GenerateToken, h1]
  · intro later hlater
    refine ⟨by simp [ValidateToken, ParseToken, GenerateToken, hlater], by decide⟩

/-- C9 witness: with a 24-hour service, user id 9, issuance at time 0,
successful verification at time 0 and expiry at time 86400 exactly. -/
theorem token_roundtrip_and_expiry_witness :
    (0 : Int) < (NewJWTService (goStr "secret") 24).tokenExpiry ∧
    GetUserIDFromToken (NewJWTService (goStr "secret") 24) 0
      (GenerateToken (NewJWTService (goStr "secret") 24) 0
        ⟨9, goStr "alice", goStr "a@x.com", [], [], [], 0, 0⟩) = .ok 9 ∧
    ValidateToken (NewJWTService (goStr "secret") 24) 86400
      (GenerateToken (NewJWTService (goStr "secret") 24) 0
        ⟨9, goStr "alice", goStr "a@x.com", [], [], [], 0, 0⟩) =
      .error (goStr "failed to parse token: token has invalid claims: token is expired") :=
  ⟨by decide,
   (token_roundtrip_and_expiry (NewJWTService (goStr "secret") 24)
     ⟨9, goStr "alice", goStr "a@x.com", [], [], [], 0, 0⟩ 0 (by decide)).1,
   ((token_roundtrip_and_expiry (NewJWTService (goStr "secret") 24)
     ⟨9, goStr "alice", goStr "a@x.com", [], [], [], 0, 0⟩ 0 (by decide)).2 86400 (by decide)).1⟩
/-- C5: for an authenticated caller who is not the stored author, PUT and
DELETE on an article and DELETE on a comment return 403 Forbidden with the
store unchanged; when the target row does not exist the request returns 404
Not Found instead, again with the store unchanged. -/
theorem ownership_mutation_guard (db : DBState) (userID : Int) (slug : GoStr)
    (hslug : slug ≠ []) :
    (∀ a : Article, repoGetBySlug db slug = .ok a → a.authorID ≠ userID →
      DeleteArticle db (goStr "DELETE") (some userID) slug = (403, db) ∧
      ∀ (now : Int) (body : Option ArticleUpdate),
        UpdateArticle now db (goStr "PUT") (some userID) slug body = (403, db)) ∧
    (db.articles.find? (fun a => a.slug == slug) = none →
      DeleteArticle db (goStr "DELETE") (some userID) slug = (404, db) ∧
      (∀ (now : Int) (body : Option ArticleUpdate),
        UpdateArticle now db (goStr "PUT") (some userID) slug body = (404, db)) ∧
      (∀ (cidStr : GoStr) (cid : Int), cidStr ≠ [] → goParseInt cidStr = .ok cid →
        DeleteComment db (goStr "DELETE") (some userID) slug cidStr = (404, db))) ∧
    (∀ (art : Article) (c : Comment) (cidStr : GoStr) (cid : Int),
      repoGetBySlug db slug = .ok art → cidStr ≠ [] → goParseInt cidStr = .ok cid →
      repoCommentGetByID db cid = .ok c → c.authorID ≠ userID →
      DeleteComment db (goStr "DELETE") (some userID) slug cidStr = (403, db)) ∧
    (∀ (art : Article) (cidStr : GoStr) (cid : Int),
      repoGetBySlug db slug = .ok art → cidStr ≠ [] → goParseInt cidStr = .ok cid →
      db.comments.find? (fun c => c.id == cid) = none →
      DeleteComment db (goStr "DELETE") (some userID) slug cidStr = (404, db)) := by
  refine ⟨?_, ?_, ?_, ?_⟩
  · intro a hget hauth
    constructor
    · simp [DeleteArticle, hslug, hget, hauth]
    · intro now body
      simp [UpdateArticle, hslug, hget, hauth]
  · intro hnone
    have hget : repoGetBySlug db slug = .error (goStr "article not found") := by
      simp [repoGetBySlug, hnone]
    have hcont : containsString (goStr "article not found") (goStr "not found") = true := by decide
    refine ⟨?_, ?_, ?_⟩
    · simp [DeleteArticle, hslug, hget, hcont]
    · intro now body
      simp [UpdateArticle, hslug, hget, hcont]
    · intro cidStr cid hcid hparse
      simp [DeleteComment, hslug, hcid, hparse, hget, hcont]
  · intro art c cidStr cid hget hcid hparse hcget hauth
    simp [DeleteComment, hslug, hcid, hparse, hget, hcget, hauth]
  · intro art cidStr cid hget hcid hparse hnone
    have hcget : repoCommentGetByID db cid = .error (goStr "comment not found") := by
      simp [repoCommentGetByID, hnone]
    have hcont : containsString (goStr "comment not found") (goStr "not found") = true := by decide
    simp [DeleteComment, hslug, hcid, hparse, hget, hcget, hcont]

/-- C5 witness: user 2 attempting mutations on user 1's article and comment
in the concrete fixture store: 403 everywhere with the store unchanged, and
404 for a missing slug and a missing comment id. -/
theorem ownership_mutation_guard_witness :
    DeleteArticle fixtureDB (goStr "DELETE") (some 2) (goStr "hello") = (403, fixtureDB) ∧
    UpdateArticle 99 fixtureDB (goStr "PUT") (some 2) (goStr "hello")
      (some ⟨none, none, none⟩) = (403, fixtureDB) ∧
    DeleteComment fixtureDB (goStr "DELETE") (some 2) (goStr "hello") (goStr "5") = (403, fixtureDB) ∧
    DeleteArticle fixtureDB (goStr "DELETE") (some 2) (goStr "nope") = (404, fixtureDB) ∧
    DeleteComment fixtureDB (goStr "DELETE") (some 2) (goStr "hello") (goStr "999") = (404, fixtureDB) :=
  ⟨((ownership_mutation_guard fixtureDB 2 (goStr "hello") (by decide)).1 articleHello
      (by decide) (by decide)).1,
   ((ownership_mutation_guard fixtureDB 2 (goStr "hello") (by decide)).1 articleHello
      (by decide) (by decide)).2 99 (some ⟨none, none, none⟩),
   (ownership_mutation_guard fixtureDB 2 (goStr "hello") (by decide)).2.2.1 articleHello commentC
      (goStr "5") 5 (by decide) (by decide) (by decide) (by decide) (by decide),
   ((ownership_mutation_guard fixtureDB 2 (goStr "nope") (by decide)).2.1 (by decide)).1,
   (ownership_mutation_guard fixtureDB 2 (goStr "hello") (by decide)).2.2.2 articleHello
      (goStr "999") 999 (by decide) (by decide) (by decide) (by decide)⟩

/-- The linear scan of `EnsureUniqueSlug` agrees with list membership. -/
theorem goContains_iff (E : List GoStr) (s : GoStr) : goContains E s = true ↔ s ∈ E := by
  induction E with
  | nil => simp [goContains]
  | cons x xs ih =>
    by_cases h : x = s
    · subst h; simp [goContains]
    · have hb : (x == s) = false := by simpa using h
      simp only [goContains, hb, Bool.false_eq_true, if_false, ih, List.mem_cons]
      constructor
      · exact fun hm => Or.inr hm
      · rintro (hm | hm)
        · exact absurd hm.symm h
        · exact hm

/-- Whatever the suffix loop returns is either outside the existing-slug set
or the timestamp fallback. -/
theorem ensureLoopAux_free_or_fallback (now : Int) (base : GoStr) (E : List GoStr) :
    ∀ (fuel counter : Nat),
      ensureLoopAux now base E fuel counter ∉ E ∨
      ensureLoopAux now base E fuel counter = base ++ 45 :: intToString now := by
  intro fuel
  induction fuel with
  | zero => intro counter; right; simp [ensureLoopAux]
  | succ n ih =>
    intro counter
    by_cases hc : goContains E (base ++ 45 :: natToString counter) = true
    · by_cases hcap : counter + 1 > 1000
      · right; simp [ensureLoopAux, hc, hcap]
      · have := ih (counter + 1)
        simpa [ensureLoopAux, hc, hcap] using this
    · left
      have hb : (base ++ 45 :: natToString counter) ∉ E := by
        rw [← goContains_iff]; simpa using hc
      simpa [ensureLoopAux, hc] using hb

/-- When every remaining numeric candidate is taken, the suffix loop runs to
the cap and returns the timestamp fallback. -/
theorem ensureLoopAux_cap (now : Int) (base : GoStr) (E : List GoStr) :
    ∀ (fuel counter : Nat), counter + fuel = 1001 →
      (∀ k, counter ≤ k → k ≤ 1000 → (base ++ 45 :: natToString k) ∈ E) →
      ensureLoopAux now base E fuel counter = base ++ 45 :: intToString now := by
  intro fuel
  induction fuel with
  | zero => intro counter _ _; simp [ensureLoopAux]
  | succ n ih =>
    intro counter hfc hall
    have hcnt : counter ≤ 1000 := by omega
    have hc : goContains E (base ++ 45 :: natToString counter) = true := by
      rw [goContains_iff]; exact hall counter le_rfl hcnt
    by_cases hcap : counter + 1 > 1000
    · simp [ensureLoopAux, hc, hcap]
    · have := ih (counter + 1) (by omega) (fun k hk1 hk2 => hall k (by omega) hk2)
      simpa [ensureLoopAux, hc, hcap] using this

/-- C2 amended: `EnsureUniqueSlug` returns a slug outside the existing set
UNLESS the 1000-attempt cap is exhausted, in which case it returns the
base slug with the current-Unix-timestamp suffix, which can itself collide;
a free base slug is returned as is. -/
theorem ensureUniqueSlug_not_mem_or_timestamp (now : Int) (baseSlug : GoStr)
    (existingSlugs : List GoStr) (hbase : baseSlug ≠ []) :
    (EnsureUniqueSlug now baseSlug existingSlugs ∉ existingSlugs ∨
     EnsureUniqueSlug now baseSlug existingSlugs = baseSlug ++ 45 :: intToString now) ∧
    (baseSlug ∉ existingSlugs → EnsureUniqueSlug now baseSlug existingSlugs = baseSlug) := by
  constructor
  · by_cases hc : goContains existingSlugs baseSlug = true
    · have := ensureLoopAux_free_or_fallback now baseSlug existingSlugs 1000 1
      simpa [EnsureUniqueSlug, hbase, hc] using this
    · left
      have hb : baseSlug ∉ existingSlugs := by rw [← goContains_iff]; simpa using hc
      simpa [EnsureUniqueSlug, hbase, hc] using hb
  · intro hmem
    have hc : goContains existingSlugs baseSlug = false := by
      rw [← Bool.not_eq_true, goContains_iff]; exact hmem
    simp [EnsureUniqueSlug, hbase, hc]

/-- C2 witness: concrete taken and free base slugs. -/
theorem ensureUniqueSlug_not_mem_or_timestamp_witness :
    ((EnsureUniqueSlug 7 (goStr "hello") [goStr "hello"] ∉ [goStr "hello"] ∨
      EnsureUniqueSlug 7 (goStr "hello") [goStr "hello"] = goStr "hello" ++ 45 :: intToString 7) ∧
     (goStr "hello" ∉ [goStr "hello"] → EnsureUniqueSlug 7 (goStr "hello") [goStr "hello"] = goStr "hello")) ∧
    ((EnsureUniqueSlug 7 (goStr "base") [] ∉ ([] : List GoStr) ∨
      EnsureUniqueSlug 7 (goStr "base") [] = goStr "base" ++ 45 :: intToString 7) ∧
     (goStr "base" ∉ ([] : List GoStr) → EnsureUniqueSlug 7 (goStr "base") [] = goStr "base")) :=
  ⟨ensureUniqueSlug_not_mem_or_timestamp 7 (goStr "hello") [goStr "hello"] (by decide),
   ensureUniqueSlug_not_mem_or_timestamp 7 (goStr "base") [] (by decide)⟩

/-- C2 counterexample: with base slug "a" at Unix time 0 and an existing set
containing "a", "a-1" … "a-1000" and the fallback "a-0", the function returns
"a-0", which IS a member of the existing set — refuting the unconditional
claim `EnsureUniqueSlug(s, E) ∉ E`. -/
theorem ensureUniqueSlug_cap_collision_cex :
    EnsureUniqueSlug 0 [97] capE = [97, 45, 48] ∧ [97, 45, 48] ∈ capE := by
  constructor
  · have hc : goContains capE [97] = true := by
      rw [goContains_iff]; exact List.mem_cons_self _ _
    have hall : ∀ k, 1 ≤ k → k ≤ 1000 → ([97] ++ 45 :: natToString k) ∈ capE := by
      intro k h1 h2
      have hm : ([97] ++ 45 :: natToString ((k - 1) + 1)) ∈
          (List.range 1000).map (fun i => [97] ++ 45 :: natToString (i + 1)) :=
        List.mem_map_of_mem _ (List.mem_range.mpr (by omega))
      have hk : k - 1 + 1 = k := by omega
      rw [hk] at hm
      exact List.mem_cons_of_mem _ (List.mem_cons_of_mem _ hm)
    have := ensureLoopAux_cap 0 [97] capE 1000 1 (by omega) hall
    have hx : intToString 0 = [48] := by decide
    simpa [EnsureUniqueSlug, hc, hx] using this
  · exact List.mem_cons_of_mem _ (List.mem_cons_self _ _)

/-- C3 counterexample: in a store whose single article has the suffixed slug
"hello-1" (its creation-time collision partner was deleted), updating the
article with its own unchanged title "Hello" regenerates the slug as "hello"
— the slug CHANGES even though the title did not. -/
theorem articleUpdate_same_title_slug_changes_cex :
    (repoUpdate 9 suffixedDB 2 ⟨some (goStr "Hello"), none, none⟩).1 =
      .ok ⟨2, goStr "hello", goStr "Hello", goStr "d", goStr "b", 1, 0, 0, 9⟩ ∧
    (suffixedDB.articles.find? (fun b => b.id == 2)).map (fun a => a.title) =
      some (goStr "Hello") ∧
    (suffixedDB.articles.find? (fun b => b.id == 2)).map (fun a => a.slug) =
      some (goStr "hello-1") ∧
    goStr "hello" ≠ goStr "hello-1" := by decide

/-- C3 amended: updating an article's title to its unchanged value leaves the
slug unchanged PROVIDED the current slug equals `GenerateSlug` of that title
(i.e. it was not suffixed at creation); the own-row exclusion plus global slug
uniqueness then make the regenerated base slug collision-free. -/
theorem articleUpdate_same_title_slug_unchanged
    (now : Int) (db : DBState) (a : Article)
    (hfind : db.articles.find? (fun b => b.id == a.id) = some a)
    (hslug : GenerateSlug a.title = a.slug)
    (hne : a.slug ≠ [])
    (huniq : ∀ b ∈ db.articles, b.id ≠ a.id → b.slug ≠ a.slug)
    (hauthor : (db.users.find? (fun u => u.id == a.authorID)).isSome = true) :
    (repoUpdate now db a.id ⟨some a.title, none, none⟩).1 = .ok { a with updatedAt := now } ∧
    ({ a with updatedAt := now } : Article).slug = a.slug := by
  refine ⟨?_, rfl⟩
  have hcontains : goContains (getExistingSlugsExcluding db a.slug a.id) a.slug = false := by
    rw [← Bool.not_eq_true, goContains_iff]
    intro hmem
    rw [getExistingSlugsExcluding] at hmem
    obtain ⟨b, hb, hbs⟩ := List.mem_map.mp hmem
    obtain ⟨hbmem, hbp⟩ := List.mem_filter.mp hb
    have hid : b.id ≠ a.id := by
      have := (Bool.and_eq_true _ _).mp hbp |>.2
      simpa using this
    exact huniq b hbmem hid hbs
  have hunique : EnsureUniqueSlug now a.slug (getExistingSlugsExcluding db a.slug a.id) = a.slug := by
    simp [EnsureUniqueSlug, hne, hcontains]
  have hany : (db.articles.any fun b => b.id ≠ a.id && b.slug == a.slug) = false := by
    rw [List.any_eq_false]
    intro b hb
    by_cases hid : b.id = a.id
    · simp [hid]
    · simp [hid, huniq b hb hid]
  obtain ⟨u, hu⟩ := Option.isSome_iff_exists.mp hauthor
  have ha' :
      ({ a with
          title := a.title, slug := a.slug, description := a.description,
          body := a.body, updatedAt := now } : Article) =
        { a with updatedAt := now } := rfl
  simp only [repoUpdate, hslug, hne, ite_false, if_neg hne, hunique, repoUpdateApply, hfind,
    Option.map_some, Option.getD_some, Option.getD_none, ha', hany, Bool.false_eq_true,
    if_false, loadAuthorCheck, hu]
  simp [Option.map_some, Option.getD_some, hany, loadAuthorCheck, hu]
  rw [if_neg]
  rintro ⟨x, hx, hxid, hxslug⟩
  exact huniq x hx hxid hxslug

/-- C3 witness: the fixture article, whose slug is its title slug. -/
theorem articleUpdate_same_title_slug_unchanged_witness :
    (repoUpdate 33 fixtureDB articleHello.id
        ⟨some articleHello.title, none, none⟩).1 =
      .ok { articleHello with updatedAt := 33 } ∧
    ({ articleHello with updatedAt := 33 } : Article).slug = articleHello.slug :=
  articleUpdate_same_title_slug_unchanged 33 fixtureDB articleHello
    (by decide) (by decide) (by decide) (by decide) (by decide)

/-- Each optional-field branch of `ArticleUpdate.Validate` only emits errors
keyed by its own field name. -/
theorem artUpdFieldErrs_field_eq (fn : GoStr) (bound : Nat) (em lm : GoStr) (o : Option GoStr) :
    ∀ e ∈ artUpdFieldErrs fn bound em lm o, e.field = fn := by
  intro e he
  cases o with
  | none => simp [artUpdFieldErrs] at he
  | some v =>
    simp only [artUpdFieldErrs] at he
    split at he
    · rw [List.mem_singleton] at he; subst he; rfl
    · split at he
      · rw [List.mem_singleton] at he; subst he; rfl
      · simp at he

/-- The username branch of `UserUpdate.Validate` only emits username-keyed
errors. -/
theorem updUsernameErrs_field_eq (o : Option GoStr) :
    ∀ e ∈ updUsernameErrs o, e.field = goStr "username" := by
  intro e he
  cases o with
  | none => simp [updUsernameErrs] at he
  | some v =>
    simp only [updUsernameErrs] at he
    split at he
    · split at he
      · rw [List.mem_singleton] at he; subst he; rfl
      · split at he
        · rw [List.mem_singleton] at he; subst he; rfl
        · split at he
          · rw [List.mem_singleton] at he; subst he; rfl
          · simp at he
    · simp at he

/-- The email branch of `UserUpdate.Validate` only emits email-keyed errors. -/
theorem updEmailErrs_field_eq (o : Option GoStr) :
    ∀ e ∈ updEmailErrs o, e.field = goStr "email" := by
  intro e he
  cases o with
  | none => simp [updEmailErrs] at he
  | some v =>
    simp only [updEmailErrs] at he
    split at he
    · rw [List.mem_singleton] at he; subst he; rfl
    · simp at he

/-- The password branch of `UserUpdate.Validate` only emits password-keyed
errors. -/
theorem updPasswordErrs_field_eq (o : Option GoStr) :
    ∀ e ∈ updPasswordErrs o, e.field = goStr "password" := by
  intro e he
  cases o with
  | none => simp [updPasswordErrs] at he
  | some v =>
    simp only [updPasswordErrs] at he
    split at he
    · split at he
      · rw [List.mem_singleton] at he; subst he; rfl
      · split at he
        · rw [List.mem_singleton] at he; subst he; rfl
        · simp at he
    · simp at he

/-- The bio branch of `UserUpdate.Validate` only emits bio-keyed errors. -/
theorem updBioErrs_field_eq (o : Option GoStr) :
    ∀ e ∈ updBioErrs o, e.field = goStr "bio" := by
  intro e he
  cases o with
  | none => simp [updBioErrs] at he
  | some v =>
    simp only [updBioErrs] at he
    split at he
    · rw [List.mem_singleton] at he; subst he; rfl
    · simp at he

/-- Every error returned by `UserUpdate.Validate` comes from one of its four
field branches. -/
theorem userUpdate_validate_mem (uu : UserUpdate) (e : ValidationError)
    (he : e ∈ uu.Validate.getD []) :
    e ∈ updUsernameErrs uu.username ∨ e ∈ updEmailErrs uu.email ∨
    e ∈ updPasswordErrs uu.password ∨ e ∈ updBioErrs uu.bio := by
  simp only [UserUpdate.Validate] at he
  split at he
  · simpa [List.mem_append, or_assoc] using he
  · simp at he

/-- Every error returned by `ArticleUpdate.Validate` comes from one of its
three field branches. -/
theorem artUpdate_validate_mem (au : ArticleUpdate) (e : ValidationError)
    (he : e ∈ au.Validate.getD []) :
    e ∈ artUpdFieldErrs (goStr "title") 200 (goStr "title cannot be empty")
        (goStr "title must be less than 200 characters long") au.title ∨
    e ∈ artUpdFieldErrs (goStr "description") 500 (goStr "description cannot be empty")
        (goStr "description must be less than 500 characters long") au.description ∨
    e ∈ artUpdFieldErrs (goStr "body") 10000 (goStr "body cannot be empty")
        (goStr "body must be less than 10000 characters long") au.body := by
  simp only [ArticleUpdate.Validate] at he
  split at he
  · simpa [List.mem_append, or_assoc] using he
  · simp at he

/-- C6 amended: fields absent from an optional-update DTO are never checked
(an all-absent `ArticleUpdate` validates cleanly, and an absent field
contributes no error keyed by its name).  `ArticleUpdate` treats a
present-but-(whitespace-)empty field as a validation error, but `UserUpdate`
does NOT: it applies its length/format rules only to present fields whose
value is non-empty, so a present-but-empty username, e-mail or password is
silently accepted. -/
theorem optionalUpdate_validation_amended :
    (∀ au : ArticleUpdate, au.title = none → au.description = none → au.body = none →
      au.Validate = none) ∧
    (∀ (au : ArticleUpdate) (t : GoStr), au.title = some t → goTrimSpace t = [] →
      ∃ errs, au.Validate = some errs ∧
        (⟨goStr "title", goStr "title cannot be empty"⟩ : ValidationError) ∈ errs) ∧
    (∀ (au : ArticleUpdate) (d : GoStr), au.description = some d → goTrimSpace d = [] →
      ∃ errs, au.Validate = some errs ∧
        (⟨goStr "description", goStr "description cannot be empty"⟩ : ValidationError) ∈ errs) ∧
    (∀ (au : ArticleUpdate) (b : GoStr), au.body = some b → goTrimSpace b = [] →
      ∃ errs, au.Validate = some errs ∧
        (⟨goStr "body", goStr "body cannot be empty"⟩ : ValidationError) ∈ errs) ∧
    (∀ au : ArticleUpdate, au.title = none →
      ∀ e ∈ au.Validate.getD [], e.field ≠ goStr "title") ∧
    (∀ uu : UserUpdate, uu.username = some [] →
      ∀ e ∈ uu.Validate.getD [], e.field ≠ goStr "username") ∧
    (∀ uu : UserUpdate, uu.email = some [] →
      ∀ e ∈ uu.Validate.getD [], e.field ≠ goStr "email") ∧
    (∀ uu : UserUpdate, uu.password = some [] →
      ∀ e ∈ uu.Validate.getD [], e.field ≠ goStr "password") := by
  refine ⟨?_, ?_, ?_, ?_, ?_, ?_, ?_, ?_⟩
  · intro au h1 h2 h3
    simp [ArticleUpdate.Validate, h1, h2, h3, artUpdFieldErrs]
  · intro au t ht htr
    have h1 : artUpdFieldErrs (goStr "title") 200 (goStr "title cannot be empty")
        (goStr "title must be less than 200 characters long") au.title =
        [⟨goStr "title", goStr "title cannot be empty"⟩] := by
      rw [ht]; simp [artUpdFieldErrs, htr]
    refine ⟨⟨goStr "title", goStr "title cannot be empty"⟩ ::
        (artUpdFieldErrs (goStr "description") 500 (goStr "description cannot be empty")
            (goStr "description must be less than 500 characters long") au.description ++
          artUpdFieldErrs (goStr "body") 10000 (goStr "body cannot be empty")
            (goStr "body must be less than 10000 characters long") au.body), ?_, ?_⟩
    · simp [ArticleUpdate.Validate, h1]
    · simp
  · intro au d hd htr
    have h1 : artUpdFieldErrs (goStr "description") 500 (goStr "description cannot be empty")
        (goStr "description must be less than 500 characters long") au.description =
        [⟨goStr "description", goStr "description cannot be empty"⟩] := by
      rw [hd]; simp [artUpdFieldErrs, htr]
    refine ⟨artUpdFieldErrs (goStr "title") 200 (goStr "title cannot be empty")
          (goStr "title must be less than 200 characters long") au.title ++
        ⟨goStr "description", goStr "description cannot be empty"⟩ ::
          artUpdFieldErrs (goStr "body") 10000 (goStr "body cannot be empty")
            (goStr "body must be less than 10000 characters long") au.body, ?_, ?_⟩
    · simp [ArticleUpdate.Validate, h1]
    · simp
  · intro au b hb htr
    have h1 : artUpdFieldErrs (goStr "body") 10000 (goStr "body cannot be empty")
        (goStr "body must be less than 10000 characters long") au.body =
        [⟨goStr "body", goStr "body cannot be empty"⟩] := by
      rw [hb]; simp [artUpdFieldErrs, htr]
    refine ⟨artUpdFieldErrs (goStr "title") 200 (goStr "title cannot be empty")
          (goStr "title must be less than 200 characters long") au.title ++
        (artUpdFieldErrs (goStr "description") 500 (goStr "description cannot be empty")
            (goStr "description must be less than 500 characters long") au.description ++
          [⟨goStr "body", goStr "body cannot be empty"⟩]), ?_, ?_⟩
    · simp [ArticleUpdate.Validate, h1]
    · simp
  · intro au ht e he
    rcases artUpdate_validate_mem au e he with h | h | h
    · rw [ht] at h; simp [artUpdFieldErrs] at h
    · rw [artUpdFieldErrs_field_eq _ _ _ _ _ e h]; decide
    · rw [artUpdFieldErrs_field_eq _ _ _ _ _ e h]; decide
  · intro uu hu e he
    rcases userUpdate_validate_mem uu e he with h | h | h | h
    · rw [hu] at h; simp [updUsernameErrs] at h
    · rw [updEmailErrs_field_eq _ e h]; decide
    · rw [updPasswordErrs_field_eq _ e h]; decide
    · rw [updBioErrs_field_eq _ e h]; decide
  · intro uu hu e he
    rcases userUpdate_validate_mem uu e he with h | h | h | h
    · rw [updUsernameErrs_field_eq _ e h]; decide
    · rw [hu] at h; simp [updEmailErrs] at h
    · rw [updPasswordErrs_field_eq _ e h]; decide
    · rw [updBioErrs_field_eq _ e h]; decide
  · intro uu hu e he
    rcases userUpdate_validate_mem uu e he with h | h | h | h
    · rw [updUsernameErrs_field_eq _ e h]; decide
    · rw [updEmailErrs_field_eq _ e h]; decide
    · rw [hu] at h; simp [updPasswordErrs] at h
    · rw [updBioErrs_field_eq _ e h]; decide

/-- C6 witness: concrete updates exercising each clause. -/
theorem optionalUpdate_validation_amended_witness :
    ArticleUpdate.Validate ⟨none, none, none⟩ = none ∧
    (∃ errs, ArticleUpdate.Validate ⟨some (goStr " "), none, none⟩ = some errs ∧
      (⟨goStr "title", goStr "title cannot be empty"⟩ : ValidationError) ∈ errs) ∧
    (∀ e ∈ (ArticleUpdate.Validate ⟨none, some (goStr "x"), none⟩).getD [],
      e.field ≠ goStr "title") ∧
    (∀ e ∈ (UserUpdate.Validate ⟨some [], some (goStr "bad"), none, none, none⟩).getD [],
      e.field ≠ goStr "username") :=
  ⟨optionalUpdate_validation_amended.1 ⟨none, none, none⟩ rfl rfl rfl,
   optionalUpdate_validation_amended.2.1 ⟨some (goStr " "), none, none⟩ (goStr " ") rfl (by decide),
   optionalUpdate_validation_amended.2.2.2.2.1 ⟨none, some (goStr "x"), none⟩ rfl,
   optionalUpdate_validation_amended.2.2.2.2.2.1 ⟨some [], some (goStr "bad"), none, none, none⟩ rfl⟩

theorem utf8EncodeChar_ascii {b : Nat} (h : b < 128) : utf8EncodeChar b = [b] := by
  simp [utf8EncodeChar, h]

theorem goDecodeRune_ascii (b : Nat) (rest : List Nat) (h : b < 128) :
    goDecodeRune (b :: rest) = (b, 1) := by
  simp [goDecodeRune, h]

theorem goRunesAux_ascii :
    ∀ (fuel : Nat) (l : List Nat), l.length ≤ fuel → (∀ b ∈ l, b < 128) →
      goRunesAux fuel l = l := by
  intro fuel
  induction fuel with
  | zero =>
    intro l hl _
    cases l with
    | nil => rfl
    | cons b rest => simp at hl
  | succ n ih =>
    intro l hl hb
    cases l with
    | nil => rfl
    | cons b rest =>
      have hb0 : b < 128 := hb b (by simp)
      have hrest : goRunesAux n rest = rest :=
        ih rest (by simpa using Nat.le_of_succ_le_succ hl)
          (fun x hx => hb x (List.mem_cons_of_mem _ hx))
      simp [goRunesAux, goDecodeRune_ascii b rest hb0, hrest]

theorem goRunes_ascii (l : List Nat) (h : ∀ b ∈ l, b < 128) : goRunes l = l :=
  goRunesAux_ascii l.length l le_rfl h

theorem flatMap_encode_ascii (l : List Nat) (h : ∀ b ∈ l, b < 128) :
    l.flatMap utf8EncodeChar = l := by
  induction l with
  | nil => rfl
  | cons b rest ih =>
    have hb : b < 128 := h b (by simp)
    simp [List.flatMap_cons, utf8EncodeChar_ascii hb,
      ih (fun x hx => h x (List.mem_cons_of_mem _ hx))]

theorem goToLowerRune_lt {b : Nat} (h : b < 128) : goToLowerRune b < 128 := by
  unfold goToLowerRune
  split
  · omega
  · split
    · omega
    · omega

theorem goToLowerRune_not_upper {b : Nat} (h : b < 128) :
    ¬ (65 ≤ goToLowerRune b ∧ goToLowerRune b ≤ 90) := by
  unfold goToLowerRune
  split
  · omega
  · split
    · omega
    · omega

theorem map_id_of (l : List Nat) (f : Nat → Nat) (h : ∀ b ∈ l, f b = b) : l.map f = l := by
  induction l with
  | nil => rfl
  | cons b rest ih =>
    simp [h b (by simp), ih (fun x hx => h x (List.mem_cons_of_mem _ hx))]

theorem flatMap_encode_lower (l : List Nat) (h : ∀ b ∈ l, b < 128) :
    l.flatMap (fun r => utf8EncodeChar (goToLowerRune r)) = l.map goToLowerRune := by
  induction l with
  | nil => rfl
  | cons b rest ih =>
    have hb : b < 128 := h b (by simp)
    simp [List.flatMap_cons, utf8EncodeChar_ascii (goToLowerRune_lt hb),
      ih (fun x hx => h x (List.mem_cons_of_mem _ hx))]

theorem stringsToLower_ascii (l : List Nat) (h : ∀ b ∈ l, b < 128) :
    stringsToLower l = l.map goToLowerRune := by
  unfold stringsToLower
  rw [goRunes_ascii l h, flatMap_encode_lower l h]

theorem isSlugByte_lt {b : Nat} (h : isSlugByte b = true) : b < 128 := by
  simp [isSlugByte] at h
  omega

theorem isSlugByte_not_ws {b : Nat} (h : isSlugByte b = true) : isWsByte b = false := by
  simp [isSlugByte] at h
  simp [isWsByte]
  omega

theorem isSlugByte_keep {b : Nat} (h : isSlugByte b = true) : slugKeepRune b = true := by
  simp [isSlugByte] at h
  simp [slugKeepRune, goIsLetter, goIsNumber]
  omega

theorem isSlugByte_lower_id {b : Nat} (h : isSlugByte b = true) : goToLowerRune b = b := by
  simp [isSlugByte] at h
  unfold goToLowerRune
  split
  · omega
  · split
    · omega
    · rfl

theorem keep_not_upper_slug {b : Nat} (hlt : b < 128) (hk : slugKeepRune b = true)
    (hu : ¬ (65 ≤ b ∧ b ≤ 90)) : isSlugByte b = true := by
  simp [slugKeepRune, goIsLetter, goIsNumber] at hk
  simp [isSlugByte]
  omega

theorem collapseRunsAux_mem (p : Nat → Bool) (c : Nat) :
    ∀ (l : List Nat) (flag : Bool) (b : Nat), b ∈ collapseRunsAux p c flag l →
      b = c ∨ (b ∈ l ∧ p b = false) := by
  intro l
  induction l with
  | nil => intro flag b hb; simp [collapseRunsAux] at hb
  | cons x rest ih =>
    intro flag b hb
    by_cases hx : p x = true
    · cases flag with
      | true =>
        simp only [collapseRunsAux, hx, if_true] at hb
        rcases ih true b hb with h | ⟨h1, h2⟩
        · exact Or.inl h
        · exact Or.inr ⟨List.mem_cons_of_mem _ h1, h2⟩
      | false =>
        simp only [collapseRunsAux, hx, if_true] at hb
        rcases List.mem_cons.mp hb with h | h
        · exact Or.inl h
        · rcases ih true b h with h' | ⟨h1, h2⟩
          · exact Or.inl h'
          · exact Or.inr ⟨List.mem_cons_of_mem _ h1, h2⟩
    · have hx' : p x = false := by simpa using hx
      simp only [collapseRunsAux, hx', Bool.false_eq_true, if_false] at hb
      rcases List.mem_cons.mp hb with h | h
      · subst h; exact Or.inr ⟨List.mem_cons_self _ _, hx'⟩
      · rcases ih false b h with h' | ⟨h1, h2⟩
        · exact Or.inl h'
        · exact Or.inr ⟨List.mem_cons_of_mem _ h1, h2⟩

theorem collapseRunsAux_mem_of (p : Nat → Bool) (c : Nat) :
    ∀ (l : List Nat) (flag : Bool) (b : Nat), b ∈ l → p b = false →
      b ∈ collapseRunsAux p c flag l := by
  intro l
  induction l with
  | nil => intro flag b hb _; simp at hb
  | cons x rest ih =>
    intro flag b hb hpb
    rcases List.mem_cons.mp hb with h | h
    · subst h
      simp only [collapseRunsAux, hpb, Bool.false_eq_true, if_false]
      exact List.mem_cons_self _ _
    · by_cases hx : p x = true
      · cases flag with
        | true =>
          simp only [collapseRunsAux, hx, if_true]
          exact ih true b h hpb
        | false =>
          simp only [collapseRunsAux, hx, if_true]
          exact List.mem_cons_of_mem _ (ih true b h hpb)
      · have hx' : p x = false := by simpa using hx
        simp only [collapseRunsAux, hx', Bool.false_eq_true, if_false]
        exact List.mem_cons_of_mem _ (ih false b h hpb)

theorem collapseRunsAux_true_head (p : Nat → Bool) (c : Nat) :
    ∀ (l : List Nat) (a : Nat), (collapseRunsAux p c true l).head? = some a → p a = false := by
  intro l
  induction l with
  | nil => intro a ha; simp [collapseRunsAux] at ha
  | cons x rest ih =>
    intro a ha
    by_cases hx : p x = true
    · simp only [collapseRunsAux, hx, if_true] at ha
      exact ih a ha
    · have hx' : p x = false := by simpa using hx
      simp only [collapseRunsAux, hx', Bool.false_eq_true, if_false, List.head?_cons,
        Option.some_inj] at ha
      subst ha; exact hx'

theorem collapseRunsAux_noDouble :
    ∀ (l : List Nat) (flag : Bool),
      hasDouble45 (collapseRunsAux (fun b => b == 45) 45 flag l) = false := by
  intro l
  induction l with
  | nil => intro flag; rfl
  | cons x rest ih =>
    intro flag
    by_cases hx : (x == 45) = true
    · cases flag with
      | true =>
        simp only [collapseRunsAux, hx, if_true]
        exact ih true
      | false =>
        simp only [collapseRunsAux, hx, if_true]
        cases hX : collapseRunsAux (fun b => b == 45) 45 true rest with
        | nil => rfl
        | cons y ys =>
          have hy : (y == 45) = false :=
            collapseRunsAux_true_head _ _ rest y (by rw [hX]; rfl)
          have := ih true
          rw [hX] at this
          simp [hasDouble45, hy, this]
    · have hx' : (x == 45) = false := by simpa using hx
      simp only [collapseRunsAux, hx', Bool.false_eq_true, if_false]
      cases hX : collapseRunsAux (fun b => b == 45) 45 false rest with
      | nil => rfl
      | cons y ys =>
        have := ih false
        rw [hX] at this
        simp [hasDouble45, hx', this]

theorem getLast?_cons_ne (a : Nat) (l : List Nat) (h : l ≠ []) :
    (a :: l).getLast? = l.getLast? := by
  cases l with
  | nil => exact absurd rfl h
  | cons b rest => rfl

theorem getLast?_mem_ne_nil (l : List Nat) (h : l ≠ []) :
    ∃ y, l.getLast? = some y ∧ y ∈ l := by
  cases l with
  | nil => exact absurd rfl h
  | cons a rest =>
    refine ⟨(a :: rest).getLast (by simp), ?_, List.getLast_mem _⟩
    simp [List.getLast?_eq_getLast]

theorem collapseRunsAux_ne_nil (p : Nat → Bool) (c : Nat) (l : List Nat)
    (flag : Bool) (b : Nat) (hb : b ∈ l) (hpb : p b = false) :
    collapseRunsAux p c flag l ≠ [] :=
  List.ne_nil_of_mem (collapseRunsAux_mem_of p c l flag b hb hpb)

theorem collapseRunsAux_cons (p : Nat → Bool) (c : Nat) (flag : Bool) (x : Nat)
    (rest : List Nat) :
    collapseRunsAux p c flag (x :: rest) =
      if p x then
        (if flag then collapseRunsAux p c true rest
         else c :: collapseRunsAux p c true rest)
      else x :: collapseRunsAux p c false rest := rfl

theorem collapseRunsAux_last :
    ∀ (l : List Nat) (flag : Bool), l.getLast? ≠ some 45 →
      (collapseRunsAux (fun b => b == 45) 45 flag l).getLast? ≠ some 45 := by
  intro l
  induction l with
  | nil => intro flag _; simp [collapseRunsAux]
  | cons x rest ih =>
    intro flag hlast
    rw [collapseRunsAux_cons]
    cases rest with
    | nil =>
      have hx : x ≠ 45 := by
        intro h; subst h; exact hlast rfl
      have hx' : (x == 45) = false := by simpa using hx
      rw [hx']
      simp only [Bool.false_eq_true, if_false, collapseRunsAux]
      simpa using hx
    | cons r rs =>
      have hrest : (r :: rs).getLast? ≠ some 45 := by
        rwa [getLast?_cons_ne x (r :: rs) (by simp)] at hlast
      obtain ⟨y, hy, hymem⟩ := getLast?_mem_ne_nil (r :: rs) (by simp)
      have hy45 : (y == 45) = false := by
        have : y ≠ 45 := fun h => hrest (h ▸ hy)
        simpa using this
      by_cases hx : (x == 45) = true
      · rw [hx]
        cases flag with
        | true =>
          simp only [if_true]
          exact ih true hrest
        | false =>
          simp only [if_true, Bool.false_eq_true, if_false]
          rw [getLast?_cons_ne 45 _
            (collapseRunsAux_ne_nil (fun b => b == 45) 45 (r :: rs) true y hymem hy45)]
          exact ih true hrest
      · have hx' : (x == 45) = false := by simpa using hx
        rw [hx']
        simp only [Bool.false_eq_true, if_false]
        rw [getLast?_cons_ne x _
          (collapseRunsAux_ne_nil (fun b => b == 45) 45 (r :: rs) false y hymem hy45)]
        exact ih false hrest

theorem collapseRunsAux_id_of_not (p : Nat → Bool) (c : Nat) :
    ∀ (l : List Nat) (flag : Bool), (∀ b ∈ l, p b = false) →
      collapseRunsAux p c flag l = l := by
  intro l
  induction l with
  | nil => intro flag _; rfl
  | cons x rest ih =>
    intro flag h
    have hx : p x = false := h x (by simp)
    simp only [collapseRunsAux, hx, Bool.false_eq_true, if_false]
    rw [ih false (fun b hb => h b (List.mem_cons_of_mem _ hb))]

theorem collapse45_id :
    ∀ l : List Nat, hasDouble45 l = false →
      collapseRunsAux (fun b => b == 45) 45 false l = l := by
  intro l
  induction l with
  | nil => intro _; rfl
  | cons x rest ih =>
    intro hdd
    by_cases hx : (x == 45) = true
    · have hx45 : x = 45 := by simpa using hx
      simp only [collapseRunsAux, hx, if_true]
      cases rest with
      | nil => simp [collapseRunsAux, hx45]
      | cons r rs =>
        have hr : (r == 45) = false := by
          subst hx45
          by_contra hc
          have hr45 : r = 45 := by simpa using hc
          subst hr45
          simp [hasDouble45] at hdd
        have hdd' : hasDouble45 (r :: rs) = false := by
          simp only [hasDouble45, Bool.or_eq_false_iff] at hdd
          exact hdd.2
        have hrec := ih hdd'
        simp only [collapseRunsAux, hr, Bool.false_eq_true, if_false] at hrec
        have hrs : collapseRunsAux (fun b => b == 45) 45 false rs = rs := by
          simpa using hrec
        simp only [collapseRunsAux, hr, Bool.false_eq_true, if_false]
        rw [hrs, hx45]
    · have hx' : (x == 45) = false := by simpa using hx
      have hdd' : hasDouble45 rest = false := by
        cases rest with
        | nil => rfl
        | cons r rs =>
          simp only [hasDouble45, Bool.or_eq_false_iff] at hdd
          exact hdd.2
      simp only [collapseRunsAux, hx', Bool.false_eq_true, if_false]
      rw [ih hdd']

theorem head?_dropWhile_not (p : Nat → Bool) :
    ∀ (l : List Nat) (a : Nat), ((l.dropWhile p).head? = some a) → p a = false := by
  intro l
  induction l with
  | nil => intro a ha; simp at ha
  | cons b rest ih =>
    intro a ha
    by_cases hb : p b = true
    · rw [List.dropWhile_cons_of_pos hb] at ha
      exact ih a ha
    · have hb' : p b = false := by simpa using hb
      rw [List.dropWhile_cons_of_neg (by simp [hb'])] at ha
      simp only [List.head?_cons, Option.some_inj] at ha
      subst ha; exact hb'

theorem trimRight45_decomp (l : List Nat) :
    trimRight45 l ++ (l.reverse.takeWhile (fun b => b == 45)).reverse = l := by
  unfold trimRight45
  conv_rhs => rw [← List.reverse_reverse l,
    ← List.takeWhile_append_dropWhile (p := fun b => b == 45) (l := l.reverse),
    List.reverse_append]

theorem hasDouble45_append_left :
    ∀ (x t : List Nat), hasDouble45 (x ++ t) = false → hasDouble45 x = false := by
  intro x
  induction x with
  | nil => intro t _; rfl
  | cons a xs ih =>
    intro t h
    cases xs with
    | nil => rfl
    | cons b rest =>
      simp only [List.cons_append, hasDouble45, Bool.or_eq_false_iff] at h ⊢
      refine ⟨h.1, ?_⟩
      have := ih t (by simpa using h.2)
      exact this

theorem head?_append_ne (x t : List Nat) (a : Nat) (hx : x.head? = some a) :
    (x ++ t).head? = some a := by
  cases x with
  | nil => simp at hx
  | cons b xs => simpa using hx

theorem trimRight45_length_le (l : List Nat) : (trimRight45 l).length ≤ l.length := by
  conv_rhs => rw [← trimRight45_decomp l]
  rw [List.length_append]
  exact Nat.le_add_right _ _

theorem trimRight45_getLast (l : List Nat) : (trimRight45 l).getLast? ≠ some 45 := by
  unfold trimRight45
  intro h
  rw [List.getLast?_reverse] at h
  have := head?_dropWhile_not (fun b => b == 45) l.reverse 45 h
  simp at this

theorem trimRight45_head_ne (l : List Nat) (h : l.head? ≠ some 45) :
    (trimRight45 l).head? ≠ some 45 := by
  intro hc
  exact h (by rw [← trimRight45_decomp l]; exact head?_append_ne _ _ _ hc)

theorem trimRight45_mem (l : List Nat) (b : Nat) (hb : b ∈ trimRight45 l) : b ∈ l := by
  rw [← trimRight45_decomp l]
  exact List.mem_append_left _ hb

theorem trimRight45_noDouble (l : List Nat) (h : hasDouble45 l = false) :
    hasDouble45 (trimRight45 l) = false :=
  hasDouble45_append_left _ _ (by rw [trimRight45_decomp l]; exact h)

theorem take_head_ne (n : Nat) (l : List Nat) (h : l.head? ≠ some 45) :
    (l.take n).head? ≠ some 45 := by
  intro hc
  exact h (by rw [← List.take_append_drop n l]; exact head?_append_ne _ _ _ hc)

theorem take_mem (n : Nat) (l : List Nat) (b : Nat) (hb : b ∈ l.take n) : b ∈ l := by
  rw [← List.take_append_drop n l]
  exact List.mem_append_left _ hb

theorem take_noDouble (n : Nat) (l : List Nat) (h : hasDouble45 l = false) :
    hasDouble45 (l.take n) = false :=
  hasDouble45_append_left _ _ (by rw [List.take_append_drop n l]; exact h)

theorem dropWhile_mem (p : Nat → Bool) (l : List Nat) (b : Nat)
    (hb : b ∈ l.dropWhile p) : b ∈ l := by
  rw [← List.takeWhile_append_dropWhile (p := p) (l := l)]
  exact List.mem_append_right _ hb

theorem dropWhile_id_of_head (l : List Nat) (h : l.head? ≠ some 45) :
    l.dropWhile (fun b => b == 45) = l := by
  cases l with
  | nil => rfl
  | cons b rest =>
    have hb : b ≠ 45 := by
      intro hb; exact h (by simp [hb])
    rw [List.dropWhile_cons_of_neg (by simpa using hb)]

theorem trimRight45_id_of_getLast (l : List Nat) (h : l.getLast? ≠ some 45) :
    trimRight45 l = l := by
  unfold trimRight45
  rw [dropWhile_id_of_head l.reverse (by rwa [List.head?_reverse]), List.reverse_reverse]

theorem slugFilter_slug (s : GoStr)
    (h : ∀ b ∈ s, b < 128 ∧ ¬ (65 ≤ b ∧ b ≤ 90)) :
    slugFilter s = s.filter slugKeepRune ∧
    ∀ b ∈ s.filter slugKeepRune, isSlugByte b = true := by
  have hlt : ∀ b ∈ s, b < 128 := fun b hb => (h b hb).1
  constructor
  · unfold slugFilter
    rw [goRunes_ascii s hlt]
    exact flatMap_encode_ascii _ (fun b hb => hlt b (List.mem_of_mem_filter hb))
  · intro b hb
    exact keep_not_upper_slug (h b (List.mem_of_mem_filter hb)).1 (List.of_mem_filter hb)
      (h b (List.mem_of_mem_filter hb)).2

theorem slugTrim_props (s : GoStr) (h : ∀ b ∈ s, isSlugByte b = true) :
    (∀ b ∈ slugTrim s, isSlugByte b = true) ∧
    (slugTrim s).head? ≠ some 45 ∧ (slugTrim s).getLast? ≠ some 45 := by
  refine ⟨?_, ?_, trimRight45_getLast _⟩
  · intro b hb
    exact h b (dropWhile_mem _ _ _ (trimRight45_mem _ _ hb))
  · apply trimRight45_head_ne
    intro hc
    have := head?_dropWhile_not (fun b => b == 45) s 45 hc
    simp at this

theorem slugCollapse_props (s : GoStr) (hs : ∀ b ∈ s, isSlugByte b = true)
    (hh : s.head? ≠ some 45) (hl : s.getLast? ≠ some 45) :
    (∀ b ∈ slugCollapse s, isSlugByte b = true) ∧
    hasDouble45 (slugCollapse s) = false ∧
    (slugCollapse s).head? ≠ some 45 ∧
    (slugCollapse s).getLast? ≠ some 45 := by
  refine ⟨?_, collapseRunsAux_noDouble s false, ?_, collapseRunsAux_last s false hl⟩
  · intro b hb
    rcases collapseRunsAux_mem _ _ s false b hb with rfl | ⟨hmem, _⟩
    · decide
    · exact hs b hmem
  · cases s with
    | nil => simp [slugCollapse, collapseRuns, collapseRunsAux]
    | cons b rest =>
      have hb : b ≠ 45 := by
        intro h45; exact hh (by simp [h45])
      have hb45 : (b == 45) = false := by simpa using hb
      unfold slugCollapse collapseRuns
      rw [collapseRunsAux_cons, hb45]
      simpa using hb

theorem slugTruncate_props (s : GoStr) (hs : ∀ b ∈ s, isSlugByte b = true)
    (hd : hasDouble45 s = false) (hh : s.head? ≠ some 45) (hl : s.getLast? ≠ some 45) :
    (∀ b ∈ slugTruncate s, isSlugByte b = true) ∧
    hasDouble45 (slugTruncate s) = false ∧
    (slugTruncate s).head? ≠ some 45 ∧
    (slugTruncate s).getLast? ≠ some 45 ∧
    (slugTruncate s).length ≤ 100 := by
  unfold slugTruncate
  by_cases h : 100 < s.length
  · simp only [h, if_true]
    refine ⟨?_, trimRight45_noDouble _ (take_noDouble _ _ hd),
      trimRight45_head_ne _ (take_head_ne _ _ hh), trimRight45_getLast _, ?_⟩
    · intro b hb
      exact hs b (take_mem _ _ _ (trimRight45_mem _ _ hb))
    · calc (trimRight45 (s.take 100)).length ≤ (s.take 100).length := trimRight45_length_le _
        _ ≤ 100 := by simp [List.length_take]
  · simp only [h, if_false]
    exact ⟨hs, hd, hh, hl, by omega⟩

/-- For an ASCII title, the generated slug consists of `[a-z0-9-]` bytes,
has no double hyphen, neither starts nor ends with a hyphen, and is at most
100 bytes long. -/
theorem generateSlug_ascii_props (t : GoStr) (ht : ∀ b ∈ t, b < 128) :
    (∀ b ∈ GenerateSlug t, isSlugByte b = true) ∧
    hasDouble45 (GenerateSlug t) = false ∧
    (GenerateSlug t).head? ≠ some 45 ∧
    (GenerateSlug t).getLast? ≠ some 45 ∧
    (GenerateSlug t).length ≤ 100 := by
  by_cases ht0 : t = []
  · subst ht0
    refine ⟨?_, ?_, ?_, ?_, ?_⟩ <;> simp [GenerateSlug, hasDouble45]
  · rw [GenerateSlug, if_neg ht0]
    have h1 : ∀ b ∈ stringsToLower t, b < 128 ∧ ¬ (65 ≤ b ∧ b ≤ 90) := by
      rw [stringsToLower_ascii t ht]
      intro b hb
      obtain ⟨x, hx, rfl⟩ := List.mem_map.mp hb
      exact ⟨goToLowerRune_lt (ht x hx), goToLowerRune_not_upper (ht x hx)⟩
    have h2 : ∀ b ∈ collapseRuns isWsByte 45 (stringsToLower t),
        b < 128 ∧ ¬ (65 ≤ b ∧ b ≤ 90) := by
      intro b hb
      rcases collapseRunsAux_mem isWsByte 45 _ false b hb with rfl | ⟨hmem, _⟩
      · exact ⟨by omega, by omega⟩
      · exact h1 b hmem
    obtain ⟨hfeq, hfslug⟩ := slugFilter_slug _ h2
    rw [hfeq]
    obtain ⟨h3a, h3b, h3c⟩ := slugTrim_props _ hfslug
    obtain ⟨h4a, h4b, h4c, h4d⟩ := slugCollapse_props _ h3a h3b h3c
    exact slugTruncate_props _ h4a h4b h4c h4d

/-- Any string already satisfying the slug invariants is a fixed point of
`GenerateSlug`. -/
theorem generateSlug_fixpoint (s : GoStr)
    (hs : ∀ b ∈ s, isSlugByte b = true) (hd : hasDouble45 s = false)
    (hh : s.head? ≠ some 45) (hl : s.getLast? ≠ some 45) (hlen : s.length ≤ 100) :
    GenerateSlug s = s := by
  by_cases h0 : s = []
  · subst h0; simp [GenerateSlug]
  · rw [GenerateSlug, if_neg h0]
    have hlt : ∀ b ∈ s, b < 128 := fun b hb => isSlugByte_lt (hs b hb)
    have e1 : stringsToLower s = s := by
      rw [stringsToLower_ascii s hlt]
      exact map_id_of s _ (fun b hb => isSlugByte_lower_id (hs b hb))
    rw [e1]
    have e2 : collapseRuns isWsByte 45 s = s :=
      collapseRunsAux_id_of_not _ _ s false (fun b hb => isSlugByte_not_ws (hs b hb))
    rw [e2]
    have e3 : slugFilter s = s := by
      unfold slugFilter
      rw [goRunes_ascii s hlt,
        List.filter_eq_self.mpr (fun b hb => isSlugByte_keep (hs b hb)),
        flatMap_encode_ascii s hlt]
    rw [e3]
    have e4 : slugTrim s = s := by
      unfold slugTrim trimLeft45
      rw [dropWhile_id_of_head s hh, trimRight45_id_of_getLast s hl]
    rw [e4]
    have e5 : slugCollapse s = s := collapse45_id s hd
    rw [e5]
    unfold slugTruncate
    rw [if_neg (by omega)]

/-- C10 amended: `GenerateSlug` is idempotent on its own output for every
title made of ASCII characters, including titles whose slug is cut at the
100-byte limit (for ASCII the cut never splits a character). -/
theorem generateSlug_idempotent_ascii (t : GoStr) (ht : ∀ b ∈ t, b < 128) :
    GenerateSlug (GenerateSlug t) = GenerateSlug t := by
  obtain ⟨h1, h2, h3, h4, h5⟩ := generateSlug_ascii_props t ht
  exact generateSlug_fixpoint _ h1 h2 h3 h4 h5

/-- C10 witness: an ASCII title with punctuation and spaces. -/
theorem generateSlug_idempotent_ascii_witness :
    GenerateSlug (GenerateSlug (goStr "Hello, World! How are you?")) =
      GenerateSlug (goStr "Hello, World! How are you?") :=
  generateSlug_idempotent_ascii (goStr "Hello, World! How are you?") (by decide)
